import Mathlib

set_option maxRecDepth 8000

/-!
Shallow embedding of the document retrieval engine of `rag_system.py`
(class `RAGSystem` and its command-line dispatch).  Python strings are
modelled as Lean `String` (a structure over `List Char`), Python lists as
Lean lists, exceptions as `Except`/`Option`, and the external
capabilities (file system, PDF parser, embedding model, vector index) as
explicit oracle records so failures of each can be injected.
-/

namespace RagModel

/-- Whitespace class used by Python `str.split()` / `str.strip()` with no
arguments: space, tab, newline, carriage return, vertical tab, form feed. -/
def pyIsSpace (c : Char) : Bool :=
  c == ' ' || c == '\t' || c == '\n' || c == '\r' || c == '\x0b' || c == '\x0c'

/-- Accumulating splitter behind `pyWords`: groups maximal runs of
non-whitespace characters, discarding empties, as Python `str.split()`
with no separator does.  `acc` holds the current word reversed. -/
def wordsAux : List Char → List Char → List String
  | [], acc => if acc.isEmpty then [] else [⟨acc.reverse⟩]
  | c :: cs, acc =>
    if pyIsSpace c then
      if acc.isEmpty then wordsAux cs [] else ⟨acc.reverse⟩ :: wordsAux cs []
    else wordsAux cs (c :: acc)

/-- Python `text.split()` (no separator argument): whitespace-delimited
words, with no empty strings in the result. -/
def pyWords (s : String) : List String := wordsAux s.data []

/-- Python `sep.join(xs)` for a one-character-free simple reading:
`joinSep sep [a, b, c] = a ++ sep ++ b ++ sep ++ c`, and `""` on `[]`. -/
def joinSep (sep : String) : List String → String
  | [] => ""
  | [w] => w
  | w :: ws => w ++ sep ++ joinSep sep ws

/-- Python `' '.join(words)`, used by `chunk_text`. -/
def joinSpace (ws : List String) : String := joinSep (" ") ws

/-- The list of start indices produced by Python `range(0, n, step)` for a
positive `step`: `0, step, 2*step, ...` strictly below `n`; its length is
`ceil(n / step) = (n + step - 1) / step`. -/
def strideIndices (n step : Nat) : List Nat :=
  (List.range ((n + step - 1) / step)).map (fun k => k * step)

/-- `RAGSystem.chunk_text` (rag_system.py lines 88-98).  Parameters are the
(non-negative) Python ints of every call site.  `none` models the uncaught
`ValueError` that Python `range` raises when the stride
`chunk_size - overlap` is zero; a negative stride makes `range(0, n, step)`
empty, so the function returns an empty chunk list.  Otherwise each window
is `words[i : i + chunk_size]` rejoined with single spaces, and (as in the
source) windows rendering to the empty string are dropped. -/
def chunk_text (text : String) (chunk_size overlap : Nat) : Option (List String) :=
  let ws := pyWords text
  if chunk_size = overlap then none
  else if chunk_size < overlap then some []
  else
    let step := chunk_size - overlap
    some ((((strideIndices ws.length step).map
      (fun i => joinSpace ((ws.drop i).take chunk_size))).filter (fun c => ¬ c = "")))

/-- Python `content.split(sep)` for a one-character separator: keeps empty
groups, and splitting the empty string yields `[""]`. -/
def splitOnChar (sep : Char) : List Char → List (List Char)
  | [] => [[]]
  | c :: cs =>
    if c = sep then [] :: splitOnChar sep cs
    else
      match splitOnChar sep cs with
      | [] => [[c]]
      | g :: gs => (c :: g) :: gs

/-- Python `content.split(chr(10))` on a string, as used by the CSV branch. -/
def pyLines (s : String) : List String := (splitOnChar ('\n') s.data).map (fun l => ⟨l⟩)

/-- Python `s.strip()` with no argument: drop leading and trailing
whitespace characters. -/
def pyStrip (s : String) : String :=
  ⟨((s.data.dropWhile pyIsSpace).reverse.dropWhile pyIsSpace).reverse⟩

/-- The `.csv` branch of `RAGSystem.extract_text_from_file`
(rag_system.py lines 68-81), applied to the decoded file content (the
file was read as UTF-8 with invalid bytes ignored, which cannot fail on
an existing file).  Whitespace-only content raises inside the inner
`try`, so the message is re-wrapped by the local handler.  Otherwise the
first 200 lines are taken and the blank ones among them dropped, behind
a literal header line.  The `formatted if formatted else ...` fallback of
the source is dead (the header makes `formatted` truthy) and is modelled
by the same conditional. -/
def extract_csv (content : String) : Except String String :=
  if pyStrip content = "" then Except.error ("Error reading CSV: CSV file is empty")
  else
    let lines := pyLines content
    let formatted := ("CSV Data:\n") ++
      joinSep ("\n") ((lines.take 200).filter (fun l => ¬ pyStrip l = ""))
    Except.ok (if ¬ formatted = "" then formatted else ("CSV Data: Empty file"))

/-- Rendering of one decimal digit. -/
def digitChar : Nat → Char
  | 0 => '0' | 1 => '1' | 2 => '2' | 3 => '3' | 4 => '4'
  | 5 => '5' | 6 => '6' | 7 => '7' | 8 => '8' | _ => '9'

/-- Numeric value of a decimal digit character (10 on a non-digit). -/
def digitVal (c : Char) : Nat :=
  if c = '0' then 0 else if c = '1' then 1 else if c = '2' then 2
  else if c = '3' then 3 else if c = '4' then 4 else if c = '5' then 5
  else if c = '6' then 6 else if c = '7' then 7 else if c = '8' then 8
  else if c = '9' then 9 else 10

/-- Fuelled digit expansion; `fuel > n` suffices for the recursion to
bottom out, since `n / 10 < n` for `n ≥ 10`. -/
def natDigitsAux : Nat → Nat → List Char
  | 0, _ => []
  | fuel + 1, n =>
    if n < 10 then [digitChar n]
    else natDigitsAux fuel (n / 10) ++ [digitChar (n % 10)]

/-- Big-endian decimal digits of a natural number. -/
def natDigits (n : Nat) : List Char := natDigitsAux (n + 1) n

/-- Decimal rendering of a natural number, as Python string formatting
produces inside f-strings such as the chunk-id template. -/
def natRepr (n : Nat) : String := ⟨natDigits n⟩

/-- Value of a big-endian digit string, left inverse of `natDigits`. -/
def digitsVal (l : List Char) : Nat := l.foldl (fun a c => a * 10 + digitVal c) 0

/-- Per-chunk metadata record stored with every chunk
(`{**doc_metadata, chunk_index: i}` at rag_system.py line 127).  `extra`
models the caller-supplied metadata dict merged in. -/
structure ChunkMeta where
  file_name : String
  file_path : String
  chunks_count : Nat
  chunk_index : Nat
  extra : List (String × String)
deriving DecidableEq

/-- One record of the vector index collection: id, embedding vector
(abstracted to a type parameter), chunk text, metadata. -/
structure StoredRecord (α : Type) where
  id : String
  embedding : α
  document : String
  meta : ChunkMeta
deriving DecidableEq

/-- The state of the ChromaDB collection, as the sequence of its records. -/
abbrev Store (α : Type) := List (StoredRecord α)

/-- External capabilities consumed by ingestion: file reads, the PDF
extractor (its wrapped error message included), the embedding model, and
the outcome of the collection `add` call.  Each is an oracle so that
failures can be injected. -/
structure ExternalWorld (α : Type) where
  readFile : String → Except String String
  pdfExtract : String → Except String String
  embed : List String → Except String (List α)
  upsertResult : Except String Unit

/-- Image extensions rejected at rag_system.py line 63. -/
def imageExts : List String :=
  [(".jpg"), (".jpeg"), (".png"), (".gif"), (".webp"), (".bmp"), (".svg")]

/-- Text-like extensions read verbatim (rag_system.py line 82). -/
def textExts : List String :=
  [(".txt"), (".md"), (".json"), (".py"), (".js"), (".ts"), (".tsx"), (".jsx")]

/-- ASCII lowercasing of one character, the effect of Python `.lower()`
on the extensions involved here. -/
def asciiLower (c : Char) : Char :=
  if 'A' ≤ c ∧ c ≤ 'Z' then Char.ofNat (c.toNat + 32) else c

/-- Characters of `os.path.basename(path)`: everything after the last
slash. -/
def basenameChars (path : String) : List Char :=
  (path.data.reverse.takeWhile (fun c => ¬ c = '/')).reverse

/-- Python `os.path.basename(path)`. -/
def basename (path : String) : String := ⟨basenameChars path⟩

/-- Lowercased `os.path.splitext(path)[1].lower()` (rag_system.py line
60): the suffix of the basename from its last dot, empty when the
basename has no dot or consists of leading dots only. -/
def fileExt (path : String) : String :=
  let b := basenameChars path
  let extRev := b.reverse.takeWhile (fun c => ¬ c = '.')
  if b.length = extRev.length then ("")
  else
    let root := b.take (b.length - extRev.length - 1)
    if root.all (fun c => c = '.') then ("")
    else ⟨('.' :: extRev.reverse).map asciiLower⟩

/-- `RAGSystem.extract_text_from_file` (rag_system.py lines 58-86).
Read failures on the CSV path are wrapped by the local handler; the PDF
helper wraps its own errors, which the oracle's result already carries. -/
def extract_text_from_file (w : ExternalWorld α) (path : String) : Except String String :=
  let ext := fileExt path
  if imageExts.contains ext then
    Except.error ("Image files not yet supported. OCR functionality coming soon!")
  else if ext = (".pdf") then w.pdfExtract path
  else if ext = (".csv") then
    match w.readFile path with
    | Except.error e => Except.error (("Error reading CSV: ") ++ e)
    | Except.ok content => extract_csv content
  else if textExts.contains ext then w.readFile path
  else Except.error (("Unsupported file type: ") ++ ext)

/-- Result dictionary of `add_document`: the success shape carries
`file_name`, `chunks`, `message`; the failure shape carries `error`. -/
structure AddResult where
  success : Bool
  file_name : String
  chunks : Nat
  message : String
  error : String
deriving DecidableEq

/-- Document-id normalization shared by ingestion and deletion
(`file_name.replace(chr(32), chr(95)).replace(chr(46), chr(95))`). -/
def doc_id_of (file_name : String) : String :=
  ⟨file_name.data.map (fun c => if c = ' ' then '_' else if c = '.' then '_' else c)⟩

/-- Chunk id template `doc_id ++ "_chunk_" ++ i` of rag_system.py line 121. -/
def mkChunkId (doc_id : String) (i : Nat) : String :=
  doc_id ++ ("_chunk_") ++ natRepr i

/-- A convenient failure-shaped `AddResult`. -/
def addFailure (e : String) : AddResult := ⟨false, (""), 0, (""), e⟩

/-- `RAGSystem.add_document` (rag_system.py lines 100-142).  Every
exception of the body is caught by the enclosing handler and returned as
a failure result, leaving the store unchanged; on success the new chunk
records are appended to the collection.  The `none` arm of `chunk_text`
is unreachable for the fixed defaults 500/50 but modelled as the caught
`ValueError` for completeness. -/
def add_document (w : ExternalWorld α) (store : Store α) (path : String)
    (metadata : Option (List (String × String))) : AddResult × Store α :=
  match extract_text_from_file w path with
  | Except.error e => (addFailure e, store)
  | Except.ok text =>
    match chunk_text text 500 50 with
    | none => (addFailure ("range() arg 3 must not be zero"), store)
    | some chunks =>
      match w.embed chunks with
      | Except.error e => (addFailure e, store)
      | Except.ok embs =>
        let file_name := basename path
        let doc_id := doc_id_of file_name
        let ids := (List.range chunks.length).map (mkChunkId doc_id)
        let metas := (List.range chunks.length).map
          (fun i => ChunkMeta.mk file_name path chunks.length i (metadata.getD []))
        match w.upsertResult with
        | Except.error e => (addFailure e, store)
        | Except.ok _ =>
          let recs := ((ids.zip embs).zip (chunks.zip metas)).map
            (fun p => StoredRecord.mk p.1.1 p.1.2 p.2.1 p.2.2)
          (⟨true, file_name, chunks.length,
              ("Successfully added ") ++ file_name ++ (" with ") ++
                natRepr chunks.length ++ (" chunks"), ("")⟩,
            store ++ recs)

/-- Python `record_id.startswith(doc_id)`. -/
def pyStartsWith (s pre : String) : Bool := pre.data.isPrefixOf s.data

/-- Result dictionary of `delete_document`. -/
structure DelResult where
  success : Bool
  message : String
  error : String
deriving DecidableEq

/-- `RAGSystem.delete_document` (rag_system.py lines 210-242): recompute
the document id from the file name, collect every stored id having it as
a prefix, delete exactly those (ids are unique in the collection, so
deleting by that id list removes exactly the matching records), and fail
with `Document not found` when none matches. -/
def delete_document (store : Store α) (file_name : String) : DelResult × Store α :=
  let doc_id := doc_id_of file_name
  let ids_to_delete := (store.map (fun r => r.id)).filter (fun i => pyStartsWith i doc_id)
  if ids_to_delete.isEmpty then
    (⟨false, (""), ("Document not found")⟩, store)
  else
    (⟨true, ("Deleted ") ++ file_name ++ (" (") ++
        natRepr ids_to_delete.length ++ (" chunks)"), ("")⟩,
      store.filter (fun r => ¬ pyStartsWith r.id doc_id))

/-- Shape of a ChromaDB `query` reply as the search code consumes it:
nested per-query lists.  `none` on `metadatas`/`distances` models a falsy
value (`None` or the empty list), which makes the code fall back to the
defaults `{}` and `0` instead of indexing.  Distances are abstracted to
integers; only their presence matters to the properties below. -/
structure QueryReply where
  documents : List (List String)
  metadatas : Option (List (List ChunkMeta))
  distances : Option (List (List Int))

/-- One formatted search result (`{text, metadata, distance}`); a `none`
metadata models the `{}` default. -/
structure SearchHit where
  text : String
  metadata : Option ChunkMeta
  distance : Int
deriving DecidableEq

/-- External capabilities consumed by search: query embedding and the
collection query, again with injectable failures.  `β` is the query
vector type. -/
structure SearchWorld (β : Type) where
  embedQuery : String → Except String β
  query : β → Int → Except String QueryReply

/-- The result-formatting loop of `RAGSystem.search` (rag_system.py
lines 156-164).  `none` models an `IndexError` escaping the loop when
the reply lists are ragged (truthy `metadatas`/`distances` shorter than
`documents[0]`); the guard on falsy `documents` skips the loop, leaving
the empty result list. -/
def formatResults (reply : QueryReply) : Option (List SearchHit) :=
  match reply.documents with
  | [] => some []
  | docs0 :: _ =>
    (List.range docs0.length).mapM (fun i =>
      match docs0.get? i with
      | none => none
      | some text =>
        let mdStep : Option (Option ChunkMeta) :=
          match reply.metadatas with
          | none => some none
          | some [] => some none
          | some (m0 :: _) => (m0.get? i).map some
        match mdStep with
        | none => none
        | some md =>
          let dStep : Option Int :=
            match reply.distances with
            | none => some 0
            | some [] => some 0
            | some (d0 :: _) => d0.get? i
          match dStep with
          | none => none
          | some d => some (SearchHit.mk text md d))

/-- `RAGSystem.search` (rag_system.py lines 144-170): embed the query,
query the collection, format; any exception along the way is caught and
turned into the empty list. -/
def search (sw : SearchWorld β) (q : String) (n : Int) : List SearchHit :=
  match sw.embedQuery q with
  | Except.error _ => []
  | Except.ok v =>
    match sw.query v n with
    | Except.error _ => []
    | Except.ok reply =>
      match formatResults reply with
      | none => []
      | some hits => hits

/-- File-name label of one result as `get_context_for_query` renders it:
`metadata.get(file_name, Unknown)`. -/
def hitFileName (h : SearchHit) : String :=
  match h.metadata with
  | some m => m.file_name
  | none => ("Unknown")

/-- One iteration of the context loop: the source label line followed by
the chunk text and a blank line. -/
def sourceBlock (i : Nat) (h : SearchHit) : String :=
  ("[Source ") ++ natRepr i ++ (": ") ++ hitFileName h ++ ("]\n") ++
    h.text ++ ("\n\n")

/-- The accumulating `for i, result in enumerate(results, 1)` loop of
`get_context_for_query`. -/
def contextLoop (acc : String) (i : Nat) : List SearchHit → String
  | [] => acc
  | h :: t => contextLoop (acc ++ sourceBlock i h) (i + 1) t

/-- The fixed header line of `get_context_for_query`. -/
def contextHeader : String := ("Relevant information from your documents:\n\n")

/-- `RAGSystem.get_context_for_query` (rag_system.py lines 172-184). -/
def get_context_for_query (sw : SearchWorld β) (q : String) (n : Int) : String :=
  let results := search sw q n
  if results.isEmpty then ("")
  else contextLoop contextHeader 1 results

/-- One entry of the `list_documents` reply. -/
structure DocSummary where
  file_name : String
  file_path : String
  chunks_count : Nat
deriving DecidableEq

/-- The deduplicating scan of `RAGSystem.list_documents` (rag_system.py
lines 186-208): first record of each file name wins, records with a
falsy (empty) file name are skipped, insertion order is kept. -/
def listDocsAux (seen : List String) : List (StoredRecord α) → List DocSummary
  | [] => []
  | r :: rest =>
    if r.meta.file_name = "" ∨ r.meta.file_name ∈ seen then listDocsAux seen rest
    else
      DocSummary.mk r.meta.file_name r.meta.file_path r.meta.chunks_count ::
        listDocsAux (r.meta.file_name :: seen) rest

/-- `RAGSystem.list_documents`. -/
def list_documents (store : Store α) : List DocSummary := listDocsAux [] store

/-- What one CLI invocation prints: nothing, a JSON-encoded value of the
given shape, or the `{error: message}` object. -/
inductive CliOut
  | silent
  | addOut (r : AddResult)
  | listOut (l : List DocSummary)
  | deleteOut (r : DelResult)
  | searchOut (l : List SearchHit)
  | contextOut (s : String)
  | errorOut (msg : String)
deriving DecidableEq

/-- The `__main__` dispatch of rag_system.py (lines 246-293), after a
successful `RAGSystem()` construction, over `sys.argv[1:]`.  Returns the
printed value and the process exit status.  A bad `n_results` literal
raises `ValueError` inside the `try`, reaching the outer handler (the
modelled message omits the quoted literal of the Python one); `sys.exit`
raises `SystemExit`, which `except Exception` does not intercept, so the
chosen statuses survive. -/
def cliMain (w : ExternalWorld α) (sw : SearchWorld β) (store : Store α)
    (args : List String) : CliOut × Nat :=
  match args with
  | [] => (CliOut.silent, 0)
  | cmd :: rest =>
    if cmd = ("add") then
      match rest with
      | path :: _ => (CliOut.addOut (add_document w store path none).1, 0)
      | [] => (CliOut.errorOut ("Invalid command"), 1)
    else if cmd = ("list") then (CliOut.listOut (list_documents store), 0)
    else if cmd = ("delete") then
      match rest with
      | name :: _ => (CliOut.deleteOut (delete_document store name).1, 0)
      | [] => (CliOut.errorOut ("Invalid command"), 1)
    else if cmd = ("search") then
      match rest with
      | q :: [] => (CliOut.searchOut (search sw q 3), 0)
      | q :: ns :: _ =>
        match String.toInt? ns with
        | some n => (CliOut.searchOut (search sw q n), 0)
        | none => (CliOut.errorOut (("invalid literal for int() with base 10: ") ++ ns), 1)
      | [] => (CliOut.errorOut ("Invalid command"), 1)
    else if cmd = ("context") then
      match rest with
      | q :: [] => (CliOut.contextOut (get_context_for_query sw q 3), 0)
      | q :: ns :: _ =>
        match String.toInt? ns with
        | some n => (CliOut.contextOut (get_context_for_query sw q n), 0)
        | none => (CliOut.errorOut (("invalid literal for int() with base 10: ") ++ ns), 1)
      | [] => (CliOut.errorOut ("Invalid command"), 1)
    else (CliOut.errorOut ("Invalid command"), 1)

/-- The five recognized command verbs. -/
def knownCommands : List String := [("add"), ("list"), ("delete"), ("search"), ("context")]

/-- The verbs that require one argument. -/
def argCommands : List String := [("add"), ("delete"), ("search"), ("context")]

/-- Modelled from the spec sentence under test for the CSV claim (not
from the source): the content capped to the first 200 non-blank lines,
behind the literal header.  Compared against `extract_csv`, which
instead drops the blank lines among the first 200 lines. -/
def csvClaimFormat (content : String) : String :=
  ("CSV Data:\n") ++
    joinSep ("\n") (((pyLines content).filter (fun l => ¬ pyStrip l = "")).take 200)

/-- CSV content distinguishing the two readings: a blank first line
followed by 200 non-blank lines. -/
def csvCounterContent : String := joinSep ("\n") (("") :: List.replicate 200 ("x"))

/-- Python `enumerate(xs, i)`. -/
def enumFrom (i : Nat) : List γ → List (Nat × γ)
  | [] => []
  | x :: t => (i, x) :: enumFrom (i + 1) t

/-- Concatenation of a list of strings in order. -/
def concatAll : List String → String
  | [] => ""
  | s :: t => s ++ concatAll t

/-- A concrete healthy external world over unit embedding vectors, for
witnesses: reads yield a two-word text, embedding and upsert succeed. -/
def w1 : ExternalWorld Unit :=
  ⟨fun _ => Except.ok ("hello world"), fun _ => Except.error ("unused"),
    fun l => Except.ok (l.map (fun _ => ())), Except.ok ()⟩

/-- The result of ingesting `a.txt` into an empty store under `w1`. -/
def addRun : AddResult × Store Unit := add_document w1 [] ("a.txt") none

/-- A world identical to `w1` except that the collection `add` call
fails, for exercising the storage-failure path of ingestion. -/
def wUpsertDown : ExternalWorld Unit :=
  ⟨fun _ => Except.ok ("hello world"), fun _ => Except.error ("unused"),
    fun l => Except.ok (l.map (fun _ => ())), Except.error ("store down")⟩

/-- A search world whose embedding provider is down. -/
def sw2 : SearchWorld Unit :=
  ⟨fun _ => Except.error ("embed down"), fun _ _ => Except.error ("unused")⟩

/-- A search world whose vector index is down. -/
def swIndexDown : SearchWorld Unit :=
  ⟨fun _ => Except.ok (), fun _ _ => Except.error ("index down")⟩

/-- Metadata of the single chunk of `a.txt` in witness stores. -/
def metaA : ChunkMeta := ChunkMeta.mk ("a.txt") ("/a.txt") 2 0 []

/-- Metadata of the single chunk of `b.txt` in witness stores. -/
def metaB : ChunkMeta := ChunkMeta.mk ("b.txt") ("/b.txt") 2 1 []

/-- A healthy search world returning two hits, from `a.txt` and `b.txt`. -/
def sw3 : SearchWorld Unit :=
  ⟨fun _ => Except.ok (),
    fun _ _ => Except.ok ⟨[[("alpha"), ("beta")]], some [[metaA, metaB]], some [[0, 1]]⟩⟩

/-- A one-record store holding the single chunk of `a.txt`, shaped as
ingestion shapes ids. -/
def store1 : Store Unit :=
  [StoredRecord.mk (mkChunkId (doc_id_of ("a.txt")) 0) () ("alpha")
    (ChunkMeta.mk ("a.txt") ("/a.txt") 1 0 [])]

theorem data_append (a b : String) : (a ++ b).data = a.data ++ b.data := rfl

theorem str_append_empty (s : String) : s ++ ("") = s := by
  cases s with
  | mk d => exact congrArg String.mk (List.append_nil d)

theorem str_append_assoc (a b c : String) : a ++ b ++ c = a ++ (b ++ c) := by
  cases a with
  | mk x =>
    cases b with
    | mk y =>
      cases c with
      | mk z => exact congrArg String.mk (List.append_assoc x y z)

theorem digitVal_digitChar {d : Nat} (h : d < 10) : digitVal (digitChar d) = d := by
  interval_cases d <;> rfl

theorem digitsVal_append (l : List Char) (c : Char) :
    digitsVal (l ++ [c]) = digitsVal l * 10 + digitVal c := by
  simp [digitsVal, List.foldl_append]

theorem digitsVal_natDigitsAux :
    ∀ fuel n, n < fuel → digitsVal (natDigitsAux fuel n) = n := by
  intro fuel
  induction fuel with
  | zero => intro n h; omega
  | succ f ih =>
    intro n h
    rw [natDigitsAux]
    by_cases h10 : n < 10
    · simp [h10, digitsVal, digitVal_digitChar h10]
    · have h1 : n / 10 < n := Nat.div_lt_self (by omega) (by omega)
      rw [if_neg h10, digitsVal_append, ih (n / 10) (by omega)]
      have h2 : n % 10 < 10 := Nat.mod_lt n (by omega)
      rw [digitVal_digitChar h2]
      omega

theorem natDigits_inj {m n : Nat} (h : natDigits m = natDigits n) : m = n := by
  have hm := digitsVal_natDigitsAux (m + 1) m (Nat.lt_succ_self m)
  have hn := digitsVal_natDigitsAux (n + 1) n (Nat.lt_succ_self n)
  have h2 : natDigitsAux (m + 1) m = natDigitsAux (n + 1) n := h
  rw [h2] at hm
  omega

theorem mkChunkId_inj (d : String) {i j : Nat} (h : mkChunkId d i = mkChunkId d j) :
    i = j := by
  have hd : (d ++ ("_chunk_")).data ++ (natRepr i).data
      = (d ++ ("_chunk_")).data ++ (natRepr j).data := congrArg String.data h
  exact natDigits_inj (List.append_cancel_left hd)

theorem mk_reverse_ne (acc : List Char) (ha : ¬ acc.isEmpty = true) :
    ¬ (⟨acc.reverse⟩ : String) = "" := by
  intro hww
  have hrev : acc.reverse = [] := congrArg String.data hww
  rw [List.isEmpty_iff] at ha
  exact ha (by simpa using hrev)

theorem wordsAux_mem_ne (cs : List Char) :
    ∀ acc w, w ∈ wordsAux cs acc → ¬ w = "" := by
  induction cs with
  | nil =>
    intro acc w hw
    rw [wordsAux] at hw
    by_cases ha : acc.isEmpty = true
    · rw [if_pos ha] at hw
      exact absurd hw (List.not_mem_nil w)
    · rw [if_neg ha] at hw
      rcases List.mem_singleton.mp hw with rfl
      exact mk_reverse_ne acc ha
  | cons c cs ih =>
    intro acc w hw
    rw [wordsAux] at hw
    by_cases hc : pyIsSpace c = true
    · rw [if_pos hc] at hw
      by_cases ha : acc.isEmpty = true
      · rw [if_pos ha] at hw
        exact ih [] w hw
      · rw [if_neg ha] at hw
        rcases List.mem_cons.mp hw with rfl | hw
        · exact mk_reverse_ne acc ha
        · exact ih [] w hw
    · rw [if_neg hc] at hw
      exact ih (c :: acc) w hw

theorem pyWords_mem_ne (text : String) : ∀ w ∈ pyWords text, ¬ w = "" := by
  intro w hw
  exact wordsAux_mem_ne text.data [] w hw

theorem joinSpace_cons_ne (w : String) (hw : ¬ w = "") (ws : List String) :
    ¬ joinSpace (w :: ws) = "" := by
  cases ws with
  | nil => simpa [joinSpace, joinSep] using hw
  | cons x xs =>
    show ¬ w ++ (" ") ++ joinSep (" ") (x :: xs) = ""
    intro h
    have hd := congrArg String.data h
    rw [data_append, data_append] at hd
    rcases List.append_eq_nil.mp hd with ⟨hd1, _⟩
    rcases List.append_eq_nil.mp hd1 with ⟨_, hd3⟩
    exact absurd hd3 (by decide)

theorem chunk_window_ne (ws : List String) (hws : ∀ w ∈ ws, ¬ w = "")
    (i c : Nat) (hi : i < ws.length) (hc : 0 < c) :
    ¬ joinSpace ((ws.drop i).take c) = "" := by
  have hlen : 0 < (ws.drop i).length := by
    rw [List.length_drop]
    omega
  obtain ⟨h, t, hht⟩ := List.exists_cons_of_ne_nil (List.ne_nil_of_length_pos hlen)
  have hmem : h ∈ ws := by
    have : h ∈ ws.drop i := by rw [hht]; exact List.mem_cons_self h t
    exact List.mem_of_mem_drop this
  rw [hht]
  cases c with
  | zero => omega
  | succ c =>
    rw [List.take_succ_cons]
    exact joinSpace_cons_ne h (hws h hmem) _

theorem lt_ceilDiv_iff {s : Nat} (hs : 0 < s) (n k : Nat) :
    k < (n + s - 1) / s ↔ k * s < n := by
  have h1 : k < (n + s - 1) / s ↔ k + 1 ≤ (n + s - 1) / s := Iff.rfl
  rw [h1, Nat.le_div_iff_mul_le hs]
  have h2 : (k + 1) * s = k * s + s := by ring
  rw [h2]
  omega

theorem chunk_text_closed_form (text : String) (c o : Nat) (ho : o < c)
    (_hn : 0 < (pyWords text).length) :
    chunk_text text c o =
      some ((List.range (((pyWords text).length + (c - o) - 1) / (c - o))).map
        (fun k => joinSpace (((pyWords text).drop (k * (c - o))).take c))) := by
  have hne : ¬ c = o := by omega
  have hnlt : ¬ c < o := by omega
  have hs : 0 < c - o := by omega
  simp only [chunk_text, if_neg hne, if_neg hnlt, strideIndices, List.map_map]
  congr 1
  apply List.filter_eq_self.mpr
  intro a ha
  simp only [List.mem_map, List.mem_range, Function.comp] at ha
  obtain ⟨k, hk, rfl⟩ := ha
  have hlt : k * (c - o) < (pyWords text).length := (lt_ceilDiv_iff hs _ _).mp hk
  simpa using chunk_window_ne (pyWords text) (pyWords_mem_ne text) _ c hlt (by omega)

/-- C1 (corrected): for a text of `n > 0` words, `chunk_size = c` and
`overlap = o < c`, `chunk_text` returns exactly
`ceil(n / (c - o)) = (n + (c - o) - 1) / (c - o)` chunks — not
`ceil(max(n - o, 0) / (c - o))` as the claim states — and the `k`-th chunk
(zero-based) is the window of `c` words starting at word `k * (c - o)`, so
each chunk starts exactly `c - o` words after the previous one. -/
theorem chunk_text_count_and_spacing (text : String) (c o : Nat) (ho : o < c)
    (hn : 0 < (pyWords text).length) :
    chunk_text text c o =
      some ((List.range (((pyWords text).length + (c - o) - 1) / (c - o))).map
        (fun k => joinSpace (((pyWords text).drop (k * (c - o))).take c))) :=
  chunk_text_closed_form text c o ho hn

/-- Witness for C1 at the three-word text with chunk size 2, overlap 1. -/
theorem chunk_text_count_and_spacing_witness :
    chunk_text ("a b c") 2 1 =
      some ((List.range (((pyWords ("a b c")).length + (2 - 1) - 1) / (2 - 1))).map
        (fun k => joinSpace (((pyWords ("a b c")).drop (k * (2 - 1))).take 2))) :=
  chunk_text_count_and_spacing ("a b c") 2 1 (by decide) (by decide)

/-- C1 counterexample: the text `a b c` (3 words) with chunk size 2 and
overlap 1 yields 3 chunks, while the claimed formula
`ceil(max(n - o, 0) / (c - o))` gives `ceil(2 / 1) = 2`. -/
theorem chunk_text_claim_count_false :
    (chunk_text ("a b c") 2 1).map List.length = some 3 ∧
    (max (3 - 1) 0 + (2 - 1) - 1) / (2 - 1) = 2 := by decide

/-- C2 (corrected): a non-empty text yields exactly one chunk (holding all
its words rejoined with single spaces) exactly when its word count is at
most `chunk_size - overlap`; word counts strictly between
`chunk_size - overlap` and `chunk_size` yield a second, redundant chunk,
refuting the claim's bound of `chunk_size`. -/
theorem chunk_text_single_chunk (text : String) (c o : Nat)
    (hn : 0 < (pyWords text).length) (hle : (pyWords text).length ≤ c - o) :
    chunk_text text c o = some [joinSpace (pyWords text)] := by
  have ho : o < c := by omega
  rw [chunk_text_closed_form text c o ho hn]
  have hq : ((pyWords text).length + (c - o) - 1) / (c - o) = 1 := by
    have h0 := lt_ceilDiv_iff (s := c - o) (by omega) (pyWords text).length 0
    have h1 := lt_ceilDiv_iff (s := c - o) (by omega) (pyWords text).length 1
    rw [Nat.zero_mul] at h0
    rw [Nat.one_mul] at h1
    omega
  have hr1 : List.range 1 = [0] := rfl
  rw [hq, hr1, List.map_singleton, Nat.zero_mul, List.drop_zero,
    List.take_of_length_le (by omega)]

/-- Witness for C2 at the one-word text with chunk size 2, overlap 1. -/
theorem chunk_text_single_chunk_witness :
    chunk_text ("a") 2 1 = some [joinSpace (pyWords ("a"))] :=
  chunk_text_single_chunk ("a") 2 1 (by decide) (by decide)

/-- C2 counterexample: the text `a b` has 2 words, strictly fewer than the
chunk size 3, yet with overlap 2 `chunk_text` returns two chunks, not one. -/
theorem chunk_text_single_claim_false :
    (pyWords ("a b")).length < 3 ∧
    (chunk_text ("a b") 3 2).map List.length = some 2 := by decide

/-- C3 (corrected): for `overlap ≥ chunk_size` the code neither rejects
with a typed failure nor clamps.  With `overlap > chunk_size` the Python
range is empty, so an empty chunk list is returned without fault; with
`overlap = chunk_size` the call faults with the untyped `ValueError`
raised by `range()` on a zero step, modelled by `none`. -/
theorem chunk_text_degenerate_stride (text : String) (c o : Nat) (h : c ≤ o) :
    chunk_text text c o = if c = o then none else some [] := by
  by_cases he : c = o
  · simp [chunk_text, he]
  · have hlt : c < o := by omega
    simp [chunk_text, he, hlt]

/-- Witness for C3 at overlap 6 against chunk size 5. -/
theorem chunk_text_degenerate_stride_witness :
    chunk_text ("a") 5 6 = if 5 = 6 then none else some [] :=
  chunk_text_degenerate_stride ("a") 5 6 (by omega)

/-- C3 counterexample: with overlap equal to chunk size the call faults
with the untyped range ValueError (modelled `none`) instead of rejecting
with a typed failure or clamping to a valid stride. -/
theorem chunk_text_zero_stride_faults : chunk_text ("a") 5 5 = none := by decide

instance : DecidableEq (Except String String) := fun a b =>
  match a, b with
  | Except.error x, Except.error y =>
    if h : x = y then Decidable.isTrue (by rw [h])
    else Decidable.isFalse (fun hc => h (by cases hc; rfl))
  | Except.ok x, Except.ok y =>
    if h : x = y then Decidable.isTrue (by rw [h])
    else Decidable.isFalse (fun hc => h (by cases hc; rfl))
  | Except.error _, Except.ok _ => Decidable.isFalse (fun hc => Except.noConfusion hc)
  | Except.ok _, Except.error _ => Decidable.isFalse (fun hc => Except.noConfusion hc)

theorem csv_header_append_ne (r : String) : ¬ (("CSV Data:\n") ++ r) = "" := by
  intro h
  have hd := congrArg String.data h
  rw [data_append] at hd
  rcases List.append_eq_nil.mp hd with ⟨h1, _⟩
  exact absurd h1 (by decide)

/-- C4 (corrected): empty or whitespace-only CSV content fails with the
wrapped extraction error; otherwise the result is the literal header line
followed by the non-blank lines among the first 200 lines of the content
(the claim's `first 200 non-blank lines` is refuted by the
counterexample), and an ok result is never the empty string. -/
theorem extract_csv_contract (content : String) :
    (pyStrip content = "" →
      extract_csv content = Except.error ("Error reading CSV: CSV file is empty")) ∧
    (¬ pyStrip content = "" →
      extract_csv content = Except.ok (("CSV Data:\n") ++
        joinSep ("\n") (((pyLines content).take 200).filter (fun l => ¬ pyStrip l = "")))) ∧
    (∀ t, extract_csv content = Except.ok t → ¬ t = "") := by
  refine ⟨?_, ?_, ?_⟩
  · intro h
    simp [extract_csv, h]
  · intro h
    simp only [extract_csv, if_neg h]
    rw [if_pos (csv_header_append_ne _)]
  · intro t ht
    by_cases h : pyStrip content = ""
    · simp [extract_csv, h] at ht
    · simp only [extract_csv, if_neg h] at ht
      rw [if_pos (csv_header_append_ne _)] at ht
      injection ht with h2
      rw [← h2]
      exact csv_header_append_ne _

/-- Witness for C4: empty content errors; `a`, blank, `b` keeps both
non-blank lines behind the header. -/
theorem extract_csv_contract_witness :
    extract_csv ("") = Except.error ("Error reading CSV: CSV file is empty") ∧
    extract_csv ("a\n\nb") = Except.ok (("CSV Data:\n") ++
      joinSep ("\n") (((pyLines ("a\n\nb")).take 200).filter (fun l => ¬ pyStrip l = ""))) :=
  ⟨(extract_csv_contract ("")).1 (by decide),
   (extract_csv_contract ("a\n\nb")).2.1 (by decide)⟩

/-- C4 counterexample: on a blank first line followed by 200 non-blank
lines, extraction keeps only the 199 non-blank lines among the first 200
lines, not the first 200 non-blank lines of the content. -/
theorem extract_csv_claim_false :
    ¬ extract_csv csvCounterContent = Except.ok (csvClaimFormat csvCounterContent) := by
  decide

/-- C5 (confirmed): `add_document` never raises past the engine boundary.
An image extension yields the structured failure result with the
image/OCR message and leaves the store untouched; an extraction error, a
chunking fault, an embedding error or a storage (upsert) error is
likewise returned as a `success = false` result carrying the message;
and every failure result leaves the store unchanged (mutation happens
only on the success path). -/
theorem add_document_error_contract (w : ExternalWorld α) (store : Store α)
    (path : String) (md : Option (List (String × String))) :
    (imageExts.contains (fileExt path) = true →
      add_document w store path md =
        (addFailure ("Image files not yet supported. OCR functionality coming soon!"), store)) ∧
    (∀ e, extract_text_from_file w path = Except.error e →
      add_document w store path md = (addFailure e, store)) ∧
    (∀ text chunks e, extract_text_from_file w path = Except.ok text →
      chunk_text text 500 50 = some chunks → w.embed chunks = Except.error e →
      add_document w store path md = (addFailure e, store)) ∧
    (∀ text chunks embs e, extract_text_from_file w path = Except.ok text →
      chunk_text text 500 50 = some chunks → w.embed chunks = Except.ok embs →
      w.upsertResult = Except.error e →
      add_document w store path md = (addFailure e, store)) ∧
    (∀ r s2, add_document w store path md = (r, s2) → r.success = false → s2 = store) := by
  refine ⟨?_, ?_, ?_, ?_, ?_⟩
  · intro himg
    have hex : extract_text_from_file w path =
        Except.error ("Image files not yet supported. OCR functionality coming soon!") := by
      simp only [extract_text_from_file]
      rw [if_pos himg]
    simp [add_document, hex]
  · intro e hex
    simp [add_document, hex]
  · intro text chunks e hex hch hemb
    simp [add_document, hex, hch, hemb]
  · intro text chunks embs e hex hch hemb hup
    simp [add_document, hex, hch, hemb, hup]
  · intro r s2 h hf
    unfold add_document at h
    split at h
    · injection h with h1 h2; exact h2.symm
    · split at h
      · injection h with h1 h2; exact h2.symm
      · split at h
        · injection h with h1 h2; exact h2.symm
        · split at h
          · injection h with h1 h2; exact h2.symm
          · injection h with h1 h2
            rw [← h1] at hf
            simp at hf

/-- Witness for C5: ingesting `photo.png` under the healthy world fails
with the image/OCR message and does not touch the empty store, and a
failed collection `add` call is returned as the structured failure with
the store unchanged. -/
theorem add_document_error_contract_witness :
    add_document w1 ([] : Store Unit) ("photo.png") none =
      (addFailure ("Image files not yet supported. OCR functionality coming soon!"), []) ∧
    add_document wUpsertDown ([] : Store Unit) ("a.txt") none =
      (addFailure ("store down"), []) :=
  ⟨(add_document_error_contract w1 [] ("photo.png") none).1 (by decide),
   (add_document_error_contract wUpsertDown [] ("a.txt") none).2.2.2.1
     ("hello world") [("hello world")] [()] ("store down")
     (by decide) (by decide) (by rfl) (by rfl)⟩

theorem map_fst_zip_sublist (l1 : List γ) (l2 : List δ) :
    List.Sublist ((l1.zip l2).map Prod.fst) l1 := by
  induction l1 generalizing l2 with
  | nil => simp
  | cons a t ih =>
    cases l2 with
    | nil => simp
    | cons b t2 =>
      rw [List.zip_cons_cons, List.map_cons]
      exact List.Sublist.cons₂ a (ih t2)

theorem nodup_double_zip {l1 : List γ} (h : l1.Nodup) (l2 : List δ) (l3 : List ε) :
    ((((l1.zip l2).zip l3)).map (fun p => p.1.1)).Nodup := by
  have h1 : List.Sublist ((((l1.zip l2).zip l3)).map Prod.fst) (l1.zip l2) :=
    map_fst_zip_sublist _ l3
  have h2 : List.Sublist (((((l1.zip l2).zip l3)).map Prod.fst).map Prod.fst)
      ((l1.zip l2).map Prod.fst) := List.Sublist.map Prod.fst h1
  have h3 : List.Sublist (((((l1.zip l2).zip l3)).map Prod.fst).map Prod.fst) l1 :=
    List.Sublist.trans h2 (map_fst_zip_sublist l1 l2)
  have h4 := List.Nodup.sublist h3 h
  rw [List.map_map] at h4
  exact h4

theorem mkChunkIds_nodup (d : String) (n : Nat) :
    ((List.range n).map (mkChunkId d)).Nodup :=
  List.Nodup.map (fun _ _ hij => mkChunkId_inj d hij) (List.nodup_range n)

/-- C10 (confirmed): whenever a call to `add_document` reaches the store
(its result reports success), the records of that one upsert have
pairwise-distinct ids (`doc_id ++ chunk ++ i` for consecutive `i` from 0)
and each record's metadata `chunk_index` equals its zero-based position,
with no reliance on the store to deduplicate. -/
theorem add_document_upsert_ids (w : ExternalWorld α) (store : Store α)
    (path : String) (md : Option (List (String × String))) (r : AddResult) (s2 : Store α)
    (h : add_document w store path md = (r, s2)) (hs : r.success = true) :
    ∃ recs, s2 = store ++ recs ∧
      ((recs.map (fun q => q.id)).Nodup) ∧
      (∀ k, (hk : k < recs.length) → (recs.get ⟨k, hk⟩).meta.chunk_index = k) := by
  unfold add_document at h
  split at h
  · injection h with h1 h2; rw [← h1] at hs; simp [addFailure] at hs
  · split at h
    · injection h with h1 h2; rw [← h1] at hs; simp [addFailure] at hs
    · split at h
      · injection h with h1 h2; rw [← h1] at hs; simp [addFailure] at hs
      · split at h
        · injection h with h1 h2; rw [← h1] at hs; simp [addFailure] at hs
        · injection h with h1 h2
          refine ⟨_, h2.symm, ?_, ?_⟩
          · rw [List.map_map]
            exact nodup_double_zip (mkChunkIds_nodup _ _) _ _
          · intro k hk
            simp only [List.get_eq_getElem, List.getElem_map, List.getElem_zip,
              List.getElem_range]

/-- Witness for C10: the successful ingestion of `a.txt` into the empty
store appends one record with a well-formed id and chunk index 0. -/
theorem add_document_upsert_ids_witness :
    ∃ recs, addRun.2 = [] ++ recs ∧
      ((recs.map (fun q => q.id)).Nodup) ∧
      (∀ k, (hk : k < recs.length) → (recs.get ⟨k, hk⟩).meta.chunk_index = k) :=
  add_document_upsert_ids w1 [] ("a.txt") none addRun.1 addRun.2 (by rfl) (by decide)

theorem isPrefixOf_append (a b : List Char) : a.isPrefixOf (a ++ b) = true := by
  induction a with
  | nil => simp [List.isPrefixOf]
  | cons c t ih => simp [List.isPrefixOf, ih]

theorem startsWith_mkChunkId (d : String) (k : Nat) :
    pyStartsWith (mkChunkId d k) d = true := by
  unfold pyStartsWith mkChunkId
  rw [str_append_assoc, data_append]
  exact isPrefixOf_append d.data _

/-- C6 (confirmed): `delete_document` recomputes the document id with the
ingestion normalization, deletes exactly the records whose id has that id
as a prefix (all of them go, and only they go), and fails with
`Document not found` when no stored id matches.  Under the ingestion id
invariant, no record whose metadata file name equals the deleted name
survives, so search can never return such a chunk again. -/
theorem delete_document_contract (store : Store α) (name : String)
    (hinv : ∀ r ∈ store, ∃ k, r.id = mkChunkId (doc_id_of r.meta.file_name) k) :
    ((∀ r ∈ store, pyStartsWith r.id (doc_id_of name) = false) →
      delete_document store name = (⟨false, (""), ("Document not found")⟩, store)) ∧
    (∀ r ∈ (delete_document store name).2, pyStartsWith r.id (doc_id_of name) = false) ∧
    (∀ r ∈ store, pyStartsWith r.id (doc_id_of name) = false →
      r ∈ (delete_document store name).2) ∧
    (∀ r ∈ (delete_document store name).2, ¬ r.meta.file_name = name) := by
  by_cases hemp :
      ((store.map (fun q => q.id)).filter
        (fun i => pyStartsWith i (doc_id_of name))).isEmpty = true
  · have hres : delete_document store name =
        (⟨false, (""), ("Document not found")⟩, store) := by
      simp only [delete_document]
      rw [if_pos hemp]
    have hall : ∀ r ∈ store, pyStartsWith r.id (doc_id_of name) = false := by
      intro r hr
      rw [List.isEmpty_iff, List.filter_eq_nil_iff] at hemp
      have h2 := hemp r.id (List.mem_map_of_mem (fun q => q.id) hr)
      simpa using h2
    refine ⟨fun _ => hres, ?_, ?_, ?_⟩
    · rw [hres]; exact hall
    · rw [hres]; intro r hr _; exact hr
    · rw [hres]
      intro r hr hname
      obtain ⟨k, hk⟩ := hinv r hr
      have h3 := hall r hr
      rw [hk, hname, startsWith_mkChunkId] at h3
      exact Bool.noConfusion h3
  · have hres : (delete_document store name).2 =
        store.filter (fun r => ¬ pyStartsWith r.id (doc_id_of name)) := by
      simp only [delete_document]
      rw [if_neg hemp]
    have hmem : ∀ r, r ∈ (delete_document store name).2 ↔
        (r ∈ store ∧ pyStartsWith r.id (doc_id_of name) = false) := by
      intro r
      rw [hres, List.mem_filter]
      simp
    refine ⟨?_, ?_, ?_, ?_⟩
    · intro hall
      exfalso
      apply hemp
      rw [List.isEmpty_iff, List.filter_eq_nil_iff]
      intro a ha
      obtain ⟨r, hr, rfl⟩ := List.mem_map.mp ha
      simp [hall r hr]
    · intro r hr
      exact ((hmem r).mp hr).2
    · intro r hr hfalse
      exact (hmem r).mpr ⟨hr, hfalse⟩
    · intro r hr hname
      have h2 := (hmem r).mp hr
      obtain ⟨k, hk⟩ := hinv r h2.1
      have h3 := h2.2
      rw [hk, hname, startsWith_mkChunkId] at h3
      exact Bool.noConfusion h3

/-- Witness for C6: deleting `a.txt` from the one-record store removes
its chunk, and no record with that file name survives. -/
theorem delete_document_contract_witness :
    (∀ r ∈ (delete_document store1 ("a.txt")).2,
      pyStartsWith r.id (doc_id_of ("a.txt")) = false) ∧
    (∀ r ∈ (delete_document store1 ("a.txt")).2, ¬ r.meta.file_name = ("a.txt")) :=
  ⟨(delete_document_contract store1 ("a.txt")
      (by
        intro r hr
        rw [store1, List.mem_singleton] at hr
        exact ⟨0, by rw [hr]⟩)).2.1,
   (delete_document_contract store1 ("a.txt")
      (by
        intro r hr
        rw [store1, List.mem_singleton] at hr
        exact ⟨0, by rw [hr]⟩)).2.2.2⟩

/-- C7 (confirmed): if the embedding provider or the vector index fails
during `search`, the caught exception degrades the result to the empty
list instead of propagating. -/
theorem search_failure_empty (sw : SearchWorld β) (q : String) (n : Int) :
    (∀ e, sw.embedQuery q = Except.error e → search sw q n = []) ∧
    (∀ v e, sw.embedQuery q = Except.ok v → sw.query v n = Except.error e →
      search sw q n = []) := by
  constructor
  · intro e he
    simp [search, he]
  · intro v e hv hq
    simp [search, hv, hq]

/-- Witness for C7: a downed embedding provider and a downed index both
yield the empty result list. -/
theorem search_failure_empty_witness :
    search sw2 ("q") 3 = [] ∧ search swIndexDown ("q") 3 = [] :=
  ⟨(search_failure_empty sw2 ("q") 3).1 ("embed down") (by rfl),
   (search_failure_empty swIndexDown ("q") 3).2 () ("index down") (by rfl) (by rfl)⟩

theorem contextLoop_eq (l : List SearchHit) : ∀ acc i,
    contextLoop acc i l =
      acc ++ concatAll ((enumFrom i l).map (fun p => sourceBlock p.1 p.2)) := by
  induction l with
  | nil =>
    intro acc i
    rw [contextLoop, enumFrom]
    simp [concatAll, str_append_empty]
  | cons h t ih =>
    intro acc i
    rw [contextLoop, ih, enumFrom, List.map_cons, concatAll, str_append_assoc]

theorem contextHeader_append_ne (r : String) : ¬ (contextHeader ++ r) = "" := by
  intro h
  have hd := congrArg String.data h
  rw [data_append] at hd
  rcases List.append_eq_nil.mp hd with ⟨h1, _⟩
  exact absurd h1 (by decide)

/-- C8 (confirmed): `get_context_for_query` returns the empty string
exactly when `search` returns no results; on `k > 0` results the output
is the fixed header followed, in result order, by one block per result
holding the `[Source i: file_name]` label (`i` from 1, the file name
from the result metadata, `Unknown` when absent) and the chunk text,
each block ending in a blank line. -/
theorem get_context_contract (sw : SearchWorld β) (q : String) (n : Int) :
    (get_context_for_query sw q n = "" ↔ search sw q n = []) ∧
    (¬ search sw q n = [] →
      get_context_for_query sw q n = contextHeader ++
        concatAll ((enumFrom 1 (search sw q n)).map (fun p => sourceBlock p.1 p.2))) := by
  have hform : ¬ search sw q n = [] →
      get_context_for_query sw q n = contextHeader ++
        concatAll ((enumFrom 1 (search sw q n)).map (fun p => sourceBlock p.1 p.2)) := by
    intro hne
    have hni : ¬ ((search sw q n).isEmpty = true) := by
      rw [List.isEmpty_iff]; exact hne
    simp only [get_context_for_query]
    rw [if_neg hni, contextLoop_eq]
  refine ⟨⟨?_, ?_⟩, hform⟩
  · intro h0
    by_contra hne
    rw [hform hne] at h0
    exact contextHeader_append_ne _ h0
  · intro hempty
    simp only [get_context_for_query]
    rw [if_pos (by rw [List.isEmpty_iff]; exact hempty)]

/-- Witness for C8: two hits from `a.txt` and `b.txt` render the header
and the two labelled blocks in order. -/
theorem get_context_contract_witness :
    get_context_for_query sw3 ("q") 3 = contextHeader ++
      concatAll ((enumFrom 1 (search sw3 ("q") 3)).map (fun p => sourceBlock p.1 p.2)) :=
  (get_context_contract sw3 ("q") 3).2 (by decide)

/-- C9 (corrected): every invocation naming an unknown command, and every
invocation naming a known argument-taking command without its required
argument, prints `{error: Invalid command}` and exits 1, and the dispatch
returns a structured output in every case; but the bare invocation with
no command at all silently exits 0, refuting the claim for that missing
argument. -/
theorem cliMain_invalid_contract (w : ExternalWorld α) (sw : SearchWorld β)
    (store : Store α) :
    (∀ cmd rest, (¬ cmd ∈ knownCommands) ∨ (cmd ∈ argCommands ∧ rest = []) →
      cliMain w sw store (cmd :: rest) = (CliOut.errorOut ("Invalid command"), 1)) ∧
    cliMain w sw store [] = (CliOut.silent, 0) := by
  constructor
  · intro cmd rest hbad
    rcases hbad with hunk | ⟨harg, rfl⟩
    · simp only [knownCommands, List.mem_cons, List.not_mem_nil, or_false, not_or] at hunk
      obtain ⟨h1, h2, h3, h4, h5⟩ := hunk
      simp only [cliMain]
      rw [if_neg h1, if_neg h2, if_neg h3, if_neg h4, if_neg h5]
    · simp only [argCommands, List.mem_cons, List.not_mem_nil, or_false] at harg
      rcases harg with rfl | rfl | rfl | rfl
      · rfl
      · rfl
      · rfl
      · rfl
  · rfl

/-- Witness for C9: an unknown verb produces the invalid-command error
with exit 1; the bare invocation exits 0 silently. -/
theorem cliMain_invalid_contract_witness :
    cliMain w1 sw2 ([] : Store Unit) [("frobnicate")] =
      (CliOut.errorOut ("Invalid command"), 1) ∧
    cliMain w1 sw2 ([] : Store Unit) [] = (CliOut.silent, 0) :=
  ⟨(cliMain_invalid_contract w1 sw2 []).1 ("frobnicate") [] (Or.inl (by decide)),
   (cliMain_invalid_contract w1 sw2 []).2⟩

/-- C9 counterexample: the invocation with no command (the required
command argument missing entirely) prints nothing and exits 0, not the
claimed `{error: Invalid command}` with a non-zero status. -/
theorem cliMain_no_args_silent :
    cliMain w1 sw2 ([] : Store Unit) [] = (CliOut.silent, 0) ∧
    ¬ (CliOut.silent, (0 : Nat)) = (CliOut.errorOut ("Invalid command"), 1) :=
  ⟨rfl, by decide⟩

end RagModel







